import Mathlib

/-! Verification model of `src/crm_core.py` (BlackRoad CRM core).

Conventions of the shallow embedding:
* Python floats (deal values, probabilities) are modelled as rationals.
* Calendar dates (`expected_close`, `today`) are integers counting days since
  an arbitrary epoch; ISO-8601 date strings compare lexicographically exactly
  like their day numbers, so the SQL text comparison on `expected_close`
  is modelled as integer comparison.
* Timestamps (`created_at`, `last_contact`, `occurred_at`) are integers
  counting microseconds since the epoch (the resolution of
  `datetime.utcnow()`); ISO-8601 timestamp strings compare like the instants
  they denote, and `isoformat`/`fromisoformat` round-trip, so timestamp
  columns are modelled as the instants themselves.
* Python `round(x, 2)` is modelled as `floor(x * 100 + 1/2) / 100`
  (round-half-up; on floats Python deviates only at exact representation
  ties, which the spec scenarios do not exercise).
* SQLite tables are lists of rows in insertion order.  The `UNIQUE` /
  `PRIMARY KEY` constraints declared in the DDL are part of the persistence
  layer and are modelled as explicit checks inside the mutating operations;
  a failing statement leaves the state unchanged and surfaces an error.
* Python dicts keyed by stage / week number are association lists in
  insertion order; `dict[k] = v` updates the first binding in place or
  appends a fresh one at the end, exactly like the Python dict.
-/

namespace CRM

/-- The module-level constant `DEAL_STAGES` of `crm_core.py`. -/
def DEAL_STAGES : List String :=
  ["lead", "qualified", "proposal", "negotiation", "closed_won", "closed_lost"]

/-- The module-level constant `STAGE_PROBS` (stage to default probability). -/
def STAGE_PROBS : List (String × ℚ) :=
  [("lead", 5 / 100), ("qualified", 20 / 100), ("proposal", 40 / 100),
   ("negotiation", 70 / 100), ("closed_won", 1), ("closed_lost", 0)]

/-- Lookup in `STAGE_PROBS`.  The `getD 0` default is never read: every call
site first checks membership in `DEAL_STAGES` (the Python dict access
`STAGE_PROBS[stage]` is guarded the same way). -/
def stageProb (stage : String) : ℚ :=
  ((STAGE_PROBS.find? (fun p => decide (p.1 = stage))).map Prod.snd).getD 0

/-- Python `round(x, 2)`. -/
def round2 (q : ℚ) : ℚ := (⌊q * 100 + 1 / 2⌋ : ℤ) / 100

/-- Stored row of the `contacts` table.  `tags` holds the comma-joined tag
string exactly as the TEXT column does. -/
structure ContactRow where
  id : String
  name : String
  email : String
  phone : String
  company : String
  tags : String
  notes : String
  created_at : Int
  last_contact : Option Int
deriving DecidableEq

/-- The in-memory `Contact` dataclass. -/
structure Contact where
  name : String
  email : String
  id : String
  phone : String
  company : String
  tags : List String
  created_at : Int
  last_contact : Option Int
  notes : String
deriving DecidableEq

/-- Stored row of the `deals` table; also the `Deal` dataclass (its fields
round-trip unchanged through `add_deal` / `_row_to_deal`). -/
structure DealRow where
  id : String
  contact_id : String
  title : String
  value : ℚ
  stage : String
  probability : ℚ
  expected_close : Option Int
  notes : String
  created_at : Int
deriving DecidableEq

/-- Stored row of the `interactions` table; also the `Interaction`
dataclass. -/
structure InteractionRow where
  id : String
  contact_id : String
  deal_id : Option String
  type : String
  notes : String
  outcome : String
  occurred_at : Int
deriving DecidableEq

/-- The whole SQLite database state. -/
structure DB where
  contacts : List ContactRow
  deals : List DealRow
  interactions : List InteractionRow
deriving DecidableEq

/-- Method `Deal.weighted_value`: `value * probability`. -/
def weightedValue (d : DealRow) : ℚ := d.value * d.probability

/-- Method `Deal.is_open`: the stage is neither `closed_won` nor
`closed_lost`.  The SQL clause `stage NOT IN ('closed_won','closed_lost')`
is this same predicate on the stored row. -/
def DealRow.is_open (d : DealRow) : Bool :=
  decide (d.stage ≠ "closed_won") && decide (d.stage ≠ "closed_lost")

/-- Python `",".join(tags)`, at the character level. -/
def joinTags (ts : List String) : String :=
  String.mk ([','].intercalate (ts.map String.data))

/-- Python `[t for t in s.split(",") if t]`, at the character level. -/
def splitTags (s : String) : List String :=
  ((s.data.splitOn ',').map String.mk).filter (fun t => decide (t ≠ ""))

/-- Serialization performed by `add_contact`: the tuple bound into
`INSERT INTO contacts`. -/
def contactToRow (c : Contact) : ContactRow :=
  { id := c.id, name := c.name, email := c.email, phone := c.phone,
    company := c.company, tags := joinTags c.tags, notes := c.notes,
    created_at := c.created_at, last_contact := c.last_contact }

/-- Method `_row_to_contact`.  The `or ""` guards in the source only matter
for SQL NULLs, which the schema defaults rule out for these columns. -/
def rowToContact (r : ContactRow) : Contact :=
  { id := r.id, name := r.name, email := r.email, phone := r.phone,
    company := r.company, tags := splitTags r.tags, notes := r.notes,
    created_at := r.created_at, last_contact := r.last_contact }

/-- Method `add_contact`.  The INSERT hits the `id` PRIMARY KEY and the
`email UNIQUE` constraints of the `contacts` DDL; on violation SQLite
raises and the table is untouched. -/
def add_contact (db : DB) (c : Contact) : DB × Except String Contact :=
  if db.contacts.any (fun r => decide (r.id = c.id) || decide (r.email = c.email)) then
    (db, Except.error "IntegrityError: UNIQUE constraint failed")
  else
    ({ db with contacts := db.contacts ++ [contactToRow c] }, Except.ok c)

/-- Method `get_contact`. -/
def get_contact (db : DB) (contact_id : String) : Option Contact :=
  (db.contacts.find? (fun r => decide (r.id = contact_id))).map rowToContact

/-- Method `find_contact_by_email`. -/
def find_contact_by_email (db : DB) (email : String) : Option Contact :=
  (db.contacts.find? (fun r => decide (r.email = email))).map rowToContact

/-- The `allowed` whitelist of `update_contact`. -/
def ALLOWED_FIELDS : List String :=
  ["name", "email", "phone", "company", "tags", "notes"]

/-- One `SET k=v` assignment of the UPDATE statement built by
`update_contact`.  A key outside the whitelist never reaches this point. -/
def setField (r : ContactRow) (k v : String) : ContactRow :=
  if k = "name" then { r with name := v }
  else if k = "email" then { r with email := v }
  else if k = "phone" then { r with phone := v }
  else if k = "company" then { r with company := v }
  else if k = "tags" then { r with tags := v }
  else if k = "notes" then { r with notes := v }
  else r

/-- Effect of the whole SET clause on one row. -/
def applyUpdates (r : ContactRow) (updates : List (String × String)) : ContactRow :=
  updates.foldl (fun acc kv => setField acc kv.1 kv.2) r

/-- The value the SET clause assigns to column `k`, when `k` was supplied
(`**kwargs` keys are distinct, so the first binding is the binding). -/
def suppliedVal (updates : List (String × String)) (k : String) : Option String :=
  (updates.find? (fun kv => decide (kv.1 = k))).map Prod.snd

/-- UNIQUE-email check the store performs on `UPDATE contacts`: the updated
row (the one whose id matches) may not take an email some other row holds. -/
def emailConflict (db : DB) (contact_id : String)
    (updates : List (String × String)) : Bool :=
  db.contacts.any (fun r => decide (r.id = contact_id) &&
    db.contacts.any (fun r2 => decide (r2.id ≠ contact_id) &&
      decide (r2.email = (applyUpdates r updates).email)))

/-- Method `update_contact`.  Keyword arguments are modelled as an
association list of column name to bound string value (Python `**kwargs`
keys are distinct; a list passed for `tags` is comma-joined by the source
before binding, so values appear here post-coercion).  The rowcount of the
UPDATE is positive exactly when some stored row has the given id. -/
def update_contact (db : DB) (contact_id : String)
    (kwargs : List (String × String)) : DB × Except String Bool :=
  let updates := kwargs.filter (fun kv => decide (kv.1 ∈ ALLOWED_FIELDS))
  if updates.isEmpty then (db, Except.ok false)
  else if emailConflict db contact_id updates then
    (db, Except.error "IntegrityError: UNIQUE constraint failed: contacts.email")
  else
    ({ db with contacts := db.contacts.map (fun r =>
        if r.id = contact_id then applyUpdates r updates else r) },
     Except.ok (db.contacts.any (fun r => decide (r.id = contact_id))))

/-- Method `log_interaction`.  `occurred_at` is `datetime.utcnow()` at entry,
passed here as `now`; the fresh uuid is passed as `ix_id`.  After the INSERT
the source unconditionally runs
`UPDATE contacts SET last_contact=? WHERE id=?`. -/
def log_interaction (db : DB) (contact_id ty notes : String)
    (deal_id : Option String) (outcome : String) (ix_id : String)
    (now : Int) : DB × InteractionRow :=
  let ix : InteractionRow :=
    { id := ix_id, contact_id := contact_id, deal_id := deal_id, type := ty,
      notes := notes, outcome := outcome, occurred_at := now }
  ({ db with
      interactions := db.interactions ++ [ix],
      contacts := db.contacts.map (fun r =>
        if r.id = contact_id then { r with last_contact := some now } else r) },
   ix)

/-- Method `add_deal`.  The INSERT hits the `id` PRIMARY KEY of `deals`. -/
def add_deal (db : DB) (d : DealRow) : DB × Except String DealRow :=
  if db.deals.any (fun x => decide (x.id = d.id)) then
    (db, Except.error "IntegrityError: UNIQUE constraint failed: deals.id")
  else
    ({ db with deals := db.deals ++ [d] }, Except.ok d)

/-- Method `advance_deal_stage`: raises `ValueError` on a non-canonical
stage before touching the store; otherwise updates stage and the default
probability on the matching row and returns `rowcount > 0`. -/
def advance_deal_stage (db : DB) (deal_id stage : String) :
    DB × Except String Bool :=
  if stage ∉ DEAL_STAGES then
    (db, Except.error "ValueError: Unknown stage")
  else
    let probability := stageProb stage
    ({ db with deals := db.deals.map (fun d =>
        if d.id = deal_id then { d with stage := stage, probability := probability } else d) },
     Except.ok (db.deals.any (fun d => decide (d.id = deal_id))))

/-- Method `get_deal`. -/
def get_deal (db : DB) (deal_id : String) : Option DealRow :=
  db.deals.find? (fun d => decide (d.id = deal_id))

/-- Per-stage metrics dictionary value of `get_deal_pipeline`. -/
structure StageEntry where
  count : Nat
  total_value : ℚ
  weighted_value : ℚ
deriving DecidableEq

/-- The zeroed per-stage entry every canonical stage is pre-seeded with. -/
def zeroEntry : StageEntry := { count := 0, total_value := 0, weighted_value := 0 }

/-- Python `dict[k] = v` on an association list: overwrite the binding of
`k` in place, or append a fresh one. -/
def setKey (m : List (String × StageEntry)) (k : String) (v : StageEntry) :
    List (String × StageEntry) :=
  match m with
  | [] => [(k, v)]
  | p :: rest => if p.1 = k then (k, v) :: rest else p :: setKey rest k v

/-- Distinct stages present in the deals table, in first-occurrence order
(the GROUP BY keys of the pipeline query; their order does not matter, every
canonical key is pre-seeded). -/
def groupKeys (deals : List DealRow) : List String :=
  deals.foldl (fun acc d => if d.stage ∈ acc then acc else acc ++ [d.stage]) []

/-- One GROUP BY output row of the pipeline query, already shaped as the
dict entry built in the `for r in rows` loop:
`count`, `round(SUM(value), 2)`, `round(SUM(value*probability), 2)`. -/
def stageRow (deals : List DealRow) (s : String) : StageEntry :=
  let ds := deals.filter (fun d => decide (d.stage = s))
  { count := ds.length,
    total_value := round2 ((ds.map (fun d => d.value)).sum),
    weighted_value := round2 ((ds.map weightedValue).sum) }

/-- Dictionary access `stages[s]` (every canonical stage is pre-seeded, so
the default is never read on the source's access paths). -/
def lookupStage (m : List (String × StageEntry)) (s : String) : StageEntry :=
  ((m.find? (fun p => decide (p.1 = s))).map Prod.snd).getD zeroEntry

/-- Return value of `get_deal_pipeline`. -/
structure Pipeline where
  stages : List (String × StageEntry)
  pipeline_value : ℚ
  pipeline_weighted : ℚ
deriving DecidableEq

/-- The four open stages, as computed in `get_deal_pipeline`. -/
def OPEN_STAGES : List String :=
  DEAL_STAGES.filter (fun s =>
    decide (s ≠ "closed_won") && decide (s ≠ "closed_lost"))

/-- Method `get_deal_pipeline`. -/
def get_deal_pipeline (db : DB) : Pipeline :=
  let init := DEAL_STAGES.map (fun s => (s, zeroEntry))
  let stages := (groupKeys db.deals).foldl
    (fun m s => setKey m s (stageRow db.deals s)) init
  let pipeline_value := (OPEN_STAGES.map (fun s => (lookupStage stages s).total_value)).sum
  let pipeline_weighted := (OPEN_STAGES.map (fun s => (lookupStage stages s).weighted_value)).sum
  { stages := stages,
    pipeline_value := round2 pipeline_value,
    pipeline_weighted := round2 pipeline_weighted }

/-- Week bucket of `forecast_revenue`:
`((close_date - today).days // 7) + 1` with Python floor division. -/
def weekBucket (today ec : Int) : Int := Int.fdiv (ec - today) 7 + 1

/-- Row set of the forecast query: open deals with a non-null expected
close date at most `today + days` (the TEXT comparison against the ISO
horizon string is day-number comparison). -/
def forecastSelect (db : DB) (today days : Int) : List DealRow :=
  db.deals.filter (fun d =>
    d.is_open &&
      match d.expected_close with
      | some ec => decide (ec ≤ today + days)
      | none => false)

/-- Per-deal snapshot appended to `deals_snapshot`; `expected_close` is
rendered as its ISO date string by the source, kept as the day number
here (the rendering is order- and value-faithful). -/
structure DealSnap where
  title : String
  value : ℚ
  probability : ℚ
  weighted : ℚ
  expected_close : Int
deriving DecidableEq

/-- Snapshot of one selected deal. -/
def snapOf (d : DealRow) : DealSnap :=
  { title := d.title, value := d.value, probability := d.probability,
    weighted := round2 (weightedValue d),
    expected_close := d.expected_close.getD 0 }

/-- Python `weekly[week_num] += weighted` on a `defaultdict(float)`:
add into the binding of the key, or append a fresh binding at the end. -/
def addWeekly (m : List (Int × ℚ)) (k : Int) (v : ℚ) : List (Int × ℚ) :=
  match m with
  | [] => [(k, v)]
  | p :: rest => if p.1 = k then (p.1, p.2 + v) :: rest else p :: addWeekly rest k v

/-- Loop state of the `for row in rows` loop of `forecast_revenue`. -/
structure ForecastAcc where
  weekly : List (Int × ℚ)
  total : ℚ
  snaps : List DealSnap
deriving DecidableEq

/-- One iteration of the forecast loop.  `expected_close` is non-null on
every selected row (the WHERE clause), so the `getD 0` default is never
read. -/
def forecastStep (today : Int) (acc : ForecastAcc) (d : DealRow) : ForecastAcc :=
  let weighted := weightedValue d
  let ec := d.expected_close.getD 0
  { weekly := addWeekly acc.weekly (weekBucket today ec) weighted,
    total := acc.total + weighted,
    snaps := acc.snaps ++ [snapOf d] }

/-- Sort order of `sorted(weekly.items())`: by key (keys are distinct). -/
def pairLE (p q : Int × ℚ) : Prop := p.1 ≤ q.1

instance : DecidableRel pairLE :=
  fun p q => inferInstanceAs (Decidable (p.1 ≤ q.1))

instance : IsTotal (Int × ℚ) pairLE := ⟨fun a b => le_total a.1 b.1⟩

instance : IsTrans (Int × ℚ) pairLE := ⟨fun _ _ _ h1 h2 => le_trans h1 h2⟩

/-- Sort order of `sorted(deals_snapshot, key=lambda x: x["expected_close"])`
(ISO date strings sort like day numbers). -/
def snapLE (a b : DealSnap) : Prop := a.expected_close ≤ b.expected_close

instance : DecidableRel snapLE :=
  fun a b => inferInstanceAs (Decidable (a.expected_close ≤ b.expected_close))

instance : IsTotal DealSnap snapLE := ⟨fun a b => le_total a.expected_close b.expected_close⟩

instance : IsTrans DealSnap snapLE := ⟨fun _ _ _ h1 h2 => le_trans h1 h2⟩

/-- Return value of `forecast_revenue`.  A `weekly_breakdown` key `k` is
rendered by the source as the label string `"week_" + str(k)`. -/
structure Forecast where
  forecast_days : Int
  total_expected : ℚ
  deal_count : Nat
  weekly_breakdown : List (Int × ℚ)
  deals : List DealSnap
deriving DecidableEq

/-- Method `forecast_revenue` (`today` is `date.today()`). -/
def forecast_revenue (db : DB) (today days : Int) : Forecast :=
  let rows := forecastSelect db today days
  let acc := rows.foldl (forecastStep today) { weekly := [], total := 0, snaps := [] }
  { forecast_days := days,
    total_expected := round2 acc.total,
    deal_count := acc.snaps.length,
    weekly_breakdown := (List.insertionSort pairLE acc.weekly).map
      (fun p => (p.1, round2 p.2)),
    deals := List.insertionSort snapLE acc.snaps }

/-- Open deals owned by one contact (the JOIN rows of the follow-up query
that survive the open-stage filter for this contact). -/
def openDealsOf (db : DB) (cid : String) : List DealRow :=
  db.deals.filter (fun d => decide (d.contact_id = cid) && d.is_open)

/-- Staleness filter of the follow-up query:
`last_contact IS NULL OR last_contact < cutoff` (TEXT comparison of ISO
timestamps is instant comparison). -/
def isStale (cutoff : Int) (r : ContactRow) : Bool :=
  match r.last_contact with
  | none => true
  | some t => decide (t < cutoff)

/-- SUM over the grouped join rows of one contact. -/
def followUpWeight (db : DB) (r : ContactRow) : ℚ :=
  ((openDealsOf db r.id).map weightedValue).sum

/-- Python `timedelta.days`: floor of the difference in whole days. -/
def daysAgo (now : Int) (lc : Option Int) : Option Int :=
  lc.map (fun t => Int.fdiv (now - t) 86400000000)

/-- One result dict of `get_follow_up_queue`. -/
structure FollowUp where
  contact_id : String
  name : String
  email : String
  company : String
  days_since_contact : Option Int
  open_deal_weighted_value : ℚ
deriving DecidableEq

/-- Result row built in the `for r in rows` loop of `get_follow_up_queue`. -/
def followUpRow (db : DB) (now : Int) (r : ContactRow) : FollowUp :=
  { contact_id := r.id, name := r.name, email := r.email, company := r.company,
    days_since_contact := daysAgo now r.last_contact,
    open_deal_weighted_value := round2 (followUpWeight db r) }

/-- Qualification predicate of the follow-up query's WHERE + GROUP BY: the
contact owns at least one open deal (it survives the join) and passes the
staleness filter. -/
def fuQualifies (db : DB) (cutoff : Int) (r : ContactRow) : Bool :=
  decide (openDealsOf db r.id ≠ []) && isStale cutoff r

/-- Sort order `ORDER BY weighted DESC` on the grouped contacts. -/
def fuGE (db : DB) (r1 r2 : ContactRow) : Prop :=
  followUpWeight db r2 ≤ followUpWeight db r1

instance (db : DB) : DecidableRel (fuGE db) :=
  fun r1 r2 => inferInstanceAs (Decidable (followUpWeight db r2 ≤ followUpWeight db r1))

instance (db : DB) : IsTotal ContactRow (fuGE db) :=
  ⟨fun a b => (le_total (followUpWeight db b) (followUpWeight db a)).imp id id⟩

instance (db : DB) : IsTrans ContactRow (fuGE db) :=
  ⟨fun _ _ _ h1 h2 => le_trans h2 h1⟩

/-- Method `get_follow_up_queue` (`now` is `datetime.utcnow()`; the
per-row `days_since_contact` recomputation of `utcnow()` is the same
instant here).  `cutoff = now - timedelta(days=days_overdue)`.  The
GROUP BY over the join keeps exactly the contacts owning at least one
open deal that also pass the staleness filter. -/
def get_follow_up_queue (db : DB) (now days_overdue : Int) : List FollowUp :=
  let cutoff := now - days_overdue * 86400000000
  let grouped := db.contacts.filter (fuQualifies db cutoff)
  (List.insertionSort (fuGE db) grouped).map (followUpRow db now)

/-- Value bound to key `k` in a weekly association list (0 when absent). -/
def wgetD (m : List (Int × ℚ)) (k : Int) : ℚ :=
  ((m.find? (fun p => decide (p.1 = k))).map Prod.snd).getD 0

/-- Key-membership in a weekly association list. -/
def hasKey (m : List (Int × ℚ)) (k : Int) : Prop := ∃ p ∈ m, p.1 = k

/-- Predicate selecting the deals of week bucket `k`. -/
def inBucket (today k : Int) (d : DealRow) : Bool :=
  decide (weekBucket today (d.expected_close.getD 0) = k)

/-- Primary-key invariant of the `contacts` table. -/
def contactIdsUnique (db : DB) : Prop := (db.contacts.map ContactRow.id).Nodup

/-- UNIQUE-email invariant of the `contacts` table. -/
def emailsUnique (db : DB) : Prop := (db.contacts.map ContactRow.email).Nodup

/-- Data-model invariant of §3 of the spec: every stored deal occupies one
of the six canonical stages. -/
def stagesCanonical (db : DB) : Prop := ∀ d ∈ db.deals, d.stage ∈ DEAL_STAGES

instance (db : DB) : Decidable (contactIdsUnique db) :=
  inferInstanceAs (Decidable ((db.contacts.map ContactRow.id).Nodup))

instance (db : DB) : Decidable (emailsUnique db) :=
  inferInstanceAs (Decidable ((db.contacts.map ContactRow.email).Nodup))

instance (db : DB) : Decidable (stagesCanonical db) :=
  inferInstanceAs (Decidable (∀ d ∈ db.deals, d.stage ∈ DEAL_STAGES))

/-- The empty database (fresh `CRMCore(":memory:")`). -/
def emptyDb : DB := { contacts := [], deals := [], interactions := [] }

/-- Forecast scenario state: one open deal valued 8000 at probability 0.7
closing 15 days out. -/
def fcDb : DB :=
  { contacts := [],
    deals := [{ id := "d1", contact_id := "c1", title := "Near", value := 8000,
                stage := "negotiation", probability := 7 / 10,
                expected_close := some 15, notes := "", created_at := 0 }],
    interactions := [] }

/-- Pipeline scenario state: Alice's deal valued 10000 at `proposal` with
probability 0.4, Bob's deal valued 2000 at `lead` with probability 0.05. -/
def pipeDb : DB :=
  { contacts := [],
    deals := [{ id := "d1", contact_id := "a", title := "Big Deal", value := 10000,
                stage := "proposal", probability := 4 / 10,
                expected_close := none, notes := "", created_at := 0 },
              { id := "d2", contact_id := "b", title := "Small Deal", value := 2000,
                stage := "lead", probability := 5 / 100,
                expected_close := none, notes := "", created_at := 0 }],
    interactions := [] }

/-- Follow-up scenario state: Alice was contacted at the current instant 0
and owns an open deal; Bob owns an open deal and was never contacted. -/
def fuDb : DB :=
  { contacts := [{ id := "a", name := "Alice Ng", email := "alice@example.com",
                   phone := "", company := "", tags := "", notes := "",
                   created_at := 0, last_contact := some 0 },
                 { id := "b", name := "Bob Smith", email := "bob@example.com",
                   phone := "", company := "", tags := "", notes := "",
                   created_at := 0, last_contact := none }],
    deals := [{ id := "d1", contact_id := "a", title := "Active", value := 3000,
                stage := "proposal", probability := 4 / 10,
                expected_close := none, notes := "", created_at := 0 },
              { id := "d2", contact_id := "b", title := "Active B", value := 1000,
                stage := "qualified", probability := 1 / 5,
                expected_close := none, notes := "", created_at := 0 }],
    interactions := [] }

/-- State refuting the unrounded reading of the follow-up weighted value:
one never-contacted contact with a single open deal of weighted value
1 * 0.005 = 0.005, which the result rounds to 0.01. -/
def c3CexDb : DB :=
  { contacts := [{ id := "c1", name := "C", email := "c@x", phone := "",
                   company := "", tags := "", notes := "",
                   created_at := 0, last_contact := none }],
    deals := [{ id := "d1", contact_id := "c1", title := "T", value := 1,
                stage := "lead", probability := 1 / 200,
                expected_close := none, notes := "", created_at := 0 }],
    interactions := [] }

/-- One stored deal at stage `lead`, for the stage-advance claims. -/
def c4Db : DB :=
  { contacts := [],
    deals := [{ id := "d1", contact_id := "c1", title := "Adv", value := 5000,
                stage := "lead", probability := 5 / 100,
                expected_close := none, notes := "", created_at := 0 }],
    interactions := [] }

/-- One stored contact whose last-contact timestamp 999 is later than the
instant 5 at which the next interaction is logged. -/
def c5Db : DB :=
  { contacts := [{ id := "c", name := "N", email := "n@x", phone := "",
                   company := "", tags := "", notes := "",
                   created_at := 0, last_contact := some 999 }],
    deals := [], interactions := [] }

/-- A valid contact for the round-trip claim, with two tags. -/
def c6Contact : Contact :=
  { name := "Alice Ng", email := "alice@example.com", id := "a1",
    phone := "555-0100", company := "Acme Corp", tags := ["vip", "enterprise"],
    created_at := 0, last_contact := none, notes := "good lead" }

/-- One stored contact holding the email `alice@example.com`. -/
def c7Db : DB :=
  { contacts := [{ id := "a", name := "Alice Ng", email := "alice@example.com",
                   phone := "", company := "", tags := "", notes := "",
                   created_at := 0, last_contact := none }],
    deals := [], interactions := [] }

/-- A second contact reusing the already-stored email. -/
def c7Dup : Contact :=
  { name := "Other", email := "alice@example.com", id := "zz", phone := "",
    company := "", tags := [], created_at := 0, last_contact := none,
    notes := "" }

/-- Two stored contacts with distinct emails, for the update claims. -/
def c9Db : DB :=
  { contacts := [{ id := "a", name := "A", email := "a@x", phone := "",
                   company := "", tags := "", notes := "",
                   created_at := 0, last_contact := none },
                 { id := "b", name := "B", email := "b@x", phone := "",
                   company := "", tags := "", notes := "",
                   created_at := 0, last_contact := none }],
    deals := [], interactions := [] }

/-! Helper lemmas about the weekly dictionary operations. -/

theorem wgetD_nil (k : Int) : wgetD [] k = 0 := rfl

theorem wgetD_cons (p : Int × ℚ) (m : List (Int × ℚ)) (k : Int) :
    wgetD (p :: m) k = if p.1 = k then p.2 else wgetD m k := by
  by_cases h : p.1 = k <;> simp [wgetD, List.find?_cons, h]

theorem hasKey_iff_mem_keys (m : List (Int × ℚ)) (k : Int) :
    hasKey m k ↔ k ∈ m.map Prod.fst := by
  simp [hasKey, List.mem_map, eq_comm]

theorem addWeekly_keys (m : List (Int × ℚ)) (k : Int) (v : ℚ) :
    (addWeekly m k v).map Prod.fst =
      if k ∈ m.map Prod.fst then m.map Prod.fst else m.map Prod.fst ++ [k] := by
  induction m with
  | nil => simp [addWeekly]
  | cons p rest ih =>
    by_cases hp : p.1 = k
    · simp [addWeekly, hp]
    · by_cases hk : k ∈ rest.map Prod.fst <;>
        simp [addWeekly, hp, ih, hk, Ne.symm hp]

theorem addWeekly_keys_nodup (m : List (Int × ℚ)) (k : Int) (v : ℚ)
    (h : (m.map Prod.fst).Nodup) : ((addWeekly m k v).map Prod.fst).Nodup := by
  rw [addWeekly_keys]
  by_cases hk : k ∈ m.map Prod.fst <;> simp [hk, h, List.nodup_append]

theorem wgetD_addWeekly (m : List (Int × ℚ)) (k kq : Int) (v : ℚ) :
    wgetD (addWeekly m k v) kq = wgetD m kq + if kq = k then v else 0 := by
  induction m with
  | nil =>
    by_cases h : kq = k
    · subst h; simp [addWeekly, wgetD_cons, wgetD_nil]
    · simp [addWeekly, wgetD_cons, wgetD_nil, h, Ne.symm h]
  | cons p rest ih =>
    by_cases hp : p.1 = k
    · have ha : addWeekly (p :: rest) k v = (p.1, p.2 + v) :: rest := by
        simp [addWeekly, hp]
      rw [ha, wgetD_cons, wgetD_cons]
      by_cases hq : kq = k
      · subst hq; rw [if_pos hp, if_pos hp, if_pos rfl]
      · have hpq : ¬ p.1 = kq := fun h => hq (h.symm.trans hp)
        rw [if_neg hpq, if_neg hpq, if_neg hq, add_zero]
    · have ha : addWeekly (p :: rest) k v = p :: addWeekly rest k v := by
        simp [addWeekly, hp]
      rw [ha, wgetD_cons, wgetD_cons]
      by_cases hq : p.1 = kq
      · have hk : ¬ kq = k := fun h => hp (hq.trans h)
        rw [if_pos hq, if_pos hq, if_neg hk, add_zero]
      · rw [if_neg hq, if_neg hq, ih]

theorem hasKey_addWeekly (m : List (Int × ℚ)) (k kq : Int) (v : ℚ) :
    hasKey (addWeekly m k v) kq ↔ hasKey m kq ∨ kq = k := by
  rw [hasKey_iff_mem_keys, hasKey_iff_mem_keys, addWeekly_keys]
  by_cases hk : k ∈ m.map Prod.fst
  · simp only [if_pos hk]
    constructor
    · exact Or.inl
    · rintro (h | rfl)
      · exact h
      · exact hk
  · simp [if_neg hk]

theorem mem_weekly_iff (m : List (Int × ℚ)) (h : (m.map Prod.fst).Nodup)
    (k : Int) (v : ℚ) : (k, v) ∈ m ↔ hasKey m k ∧ v = wgetD m k := by
  induction m with
  | nil => simp [hasKey]
  | cons p rest ih =>
    rw [List.map_cons, List.nodup_cons] at h
    obtain ⟨hp, hrest⟩ := h
    by_cases hk : p.1 = k
    · constructor
      · intro hm
        rcases List.mem_cons.1 hm with hm | hm
        · refine ⟨⟨p, by simp, hk⟩, ?_⟩
          rw [wgetD_cons, if_pos hk, ← hm]
        · exact absurd (List.mem_map.2 ⟨(k, v), hm, hk.symm⟩) hp
      · rintro ⟨-, hv⟩
        rw [wgetD_cons, if_pos hk] at hv
        subst hv
        exact List.mem_cons.2 (Or.inl (Prod.ext hk.symm rfl))
    · rw [wgetD_cons, if_neg hk]
      constructor
      · intro hm
        rcases List.mem_cons.1 hm with hm | hm
        · exact absurd (congrArg Prod.fst hm).symm hk
        · rcases (ih hrest).1 hm with ⟨hh, hv⟩
          exact ⟨⟨hh.choose, List.mem_cons.2 (Or.inr hh.choose_spec.1), hh.choose_spec.2⟩, hv⟩
      · rintro ⟨⟨q, hq, hq1⟩, hv⟩
        rcases List.mem_cons.1 hq with rfl | hq
        · exact absurd hq1 hk
        · exact List.mem_cons.2 (Or.inr ((ih hrest).2 ⟨⟨q, hq, hq1⟩, hv⟩))

/-! Helper lemmas about the forecast loop. -/

theorem forecast_foldl_total (today : Int) (rows : List DealRow) :
    ∀ acc : ForecastAcc, (rows.foldl (forecastStep today) acc).total
      = acc.total + (rows.map weightedValue).sum := by
  induction rows with
  | nil => intro acc; simp
  | cons d rest ih =>
    intro acc
    rw [List.foldl_cons, ih, List.map_cons, List.sum_cons]
    simp only [forecastStep]
    ring

theorem forecast_foldl_snaps (today : Int) (rows : List DealRow) :
    ∀ acc : ForecastAcc, (rows.foldl (forecastStep today) acc).snaps
      = acc.snaps ++ rows.map snapOf := by
  induction rows with
  | nil => intro acc; simp
  | cons d rest ih =>
    intro acc
    rw [List.foldl_cons, ih, List.map_cons]
    simp [forecastStep]

theorem forecast_foldl_wgetD (today : Int) (rows : List DealRow) :
    ∀ (acc : ForecastAcc) (k : Int),
      wgetD (rows.foldl (forecastStep today) acc).weekly k
        = wgetD acc.weekly k
          + ((rows.filter (inBucket today k)).map weightedValue).sum := by
  induction rows with
  | nil => intro acc k; simp
  | cons d rest ih =>
    intro acc k
    rw [List.foldl_cons, ih]
    simp only [forecastStep]
    rw [wgetD_addWeekly]
    by_cases h : weekBucket today (d.expected_close.getD 0) = k
    · rw [if_pos h.symm, List.filter_cons, if_pos (by simp [inBucket, h]),
        List.map_cons, List.sum_cons]
      ring
    · rw [if_neg (fun hh => h hh.symm), List.filter_cons,
        if_neg (by simp [inBucket, h]), add_zero]

theorem forecast_foldl_hasKey (today : Int) (rows : List DealRow) :
    ∀ (acc : ForecastAcc) (k : Int),
      (hasKey (rows.foldl (forecastStep today) acc).weekly k
        ↔ hasKey acc.weekly k
          ∨ ∃ d ∈ rows, weekBucket today (d.expected_close.getD 0) = k) := by
  induction rows with
  | nil => intro acc k; simp
  | cons d rest ih =>
    intro acc k
    rw [List.foldl_cons, ih]
    simp only [forecastStep]
    rw [hasKey_addWeekly]
    simp only [List.mem_cons]
    constructor
    · rintro ((h | rfl) | ⟨x, hx, hb⟩)
      · exact Or.inl h
      · exact Or.inr ⟨d, Or.inl rfl, rfl⟩
      · exact Or.inr ⟨x, Or.inr hx, hb⟩
    · rintro (h | ⟨x, (rfl | hx), hb⟩)
      · exact Or.inl (Or.inl h)
      · exact Or.inl (Or.inr hb.symm)
      · exact Or.inr ⟨x, hx, hb⟩

theorem forecast_foldl_keys_nodup (today : Int) (rows : List DealRow) :
    ∀ acc : ForecastAcc, (acc.weekly.map Prod.fst).Nodup →
      ((rows.foldl (forecastStep today) acc).weekly.map Prod.fst).Nodup := by
  induction rows with
  | nil => intro acc h; simpa
  | cons d rest ih =>
    intro acc h
    rw [List.foldl_cons]
    exact ih _ (by simp only [forecastStep]; exact addWeekly_keys_nodup _ _ _ h)

/-! Helper lemmas about rounding. -/

theorem round2_int_div (n : ℤ) : round2 ((n : ℚ) / 100) = (n : ℚ) / 100 := by
  unfold round2
  have h1 : ((n : ℚ) / 100) * 100 + 1 / 2 = (n : ℚ) + 1 / 2 := by
    field_simp
  rw [h1, add_comm, Int.floor_add_int]
  norm_num

theorem round2_form (q : ℚ) : ∃ n : ℤ, round2 q = (n : ℚ) / 100 :=
  ⟨⌊q * 100 + 1 / 2⌋, rfl⟩

theorem sum_int_div_100 (l : List ℚ) (h : ∀ x ∈ l, ∃ n : ℤ, x = (n : ℚ) / 100) :
    ∃ n : ℤ, l.sum = (n : ℚ) / 100 := by
  induction l with
  | nil => exact ⟨0, by simp⟩
  | cons x rest ih =>
    obtain ⟨nx, hx⟩ := h x (by simp)
    obtain ⟨ns, hs⟩ := ih (fun y hy => h y (by simp [hy]))
    refine ⟨nx + ns, ?_⟩
    rw [List.sum_cons, hx, hs]
    push_cast
    ring

theorem round2_mono {q r : ℚ} (h : q ≤ r) : round2 q ≤ round2 r := by
  unfold round2
  have h1 : (⌊q * 100 + 1 / 2⌋ : ℤ) ≤ ⌊r * 100 + 1 / 2⌋ :=
    Int.floor_mono (by linarith)
  have h2 : ((⌊q * 100 + 1 / 2⌋ : ℤ) : ℚ) ≤ ((⌊r * 100 + 1 / 2⌋ : ℤ) : ℚ) := by
    exact_mod_cast h1
  linarith

/-! Helper lemmas about the forecast result. -/

theorem forecastSelect_some (db : DB) (today days : Int) (d : DealRow)
    (hd : d ∈ forecastSelect db today days) :
    ∃ ec, d.expected_close = some ec ∧ ec ≤ today + days := by
  have hp := (List.mem_filter.1 hd).2
  cases hec : d.expected_close with
  | none => rw [hec] at hp; simp at hp
  | some ec =>
    rw [hec] at hp
    simp only [Bool.and_eq_true, decide_eq_true_eq] at hp
    exact ⟨ec, rfl, hp.2⟩

theorem forecast_weekly_mem (db : DB) (today days : Int) (k : Int) (v : ℚ) :
    (k, v) ∈ (forecast_revenue db today days).weekly_breakdown ↔
      (∃ d ∈ forecastSelect db today days,
        weekBucket today (d.expected_close.getD 0) = k)
      ∧ v = round2 ((((forecastSelect db today days).filter
            (inBucket today k)).map weightedValue).sum) := by
  have hnodup : (((forecastSelect db today days).foldl (forecastStep today)
      { weekly := [], total := 0, snaps := [] }).weekly.map Prod.fst).Nodup :=
    forecast_foldl_keys_nodup today _ _ (by simp)
  have hget := forecast_foldl_wgetD today (forecastSelect db today days)
    { weekly := [], total := 0, snaps := [] } k
  have hhas := forecast_foldl_hasKey today (forecastSelect db today days)
    { weekly := [], total := 0, snaps := [] } k
  rw [wgetD_nil, zero_add] at hget
  simp only [hasKey, List.not_mem_nil, false_and, exists_false, false_or] at hhas
  simp only [forecast_revenue]
  constructor
  · intro hm
    rcases List.mem_map.1 hm with ⟨p, hp, hpe⟩
    have hp2 : p ∈ ((forecastSelect db today days).foldl (forecastStep today)
        { weekly := [], total := 0, snaps := [] }).weekly := by
      simpa using hp
    have hkv : p.1 = k ∧ round2 p.2 = v := by
      constructor
      · exact congrArg Prod.fst hpe
      · exact congrArg Prod.snd hpe
    obtain ⟨hhask, hval⟩ := (mem_weekly_iff _ hnodup p.1 p.2).1 (by simpa using hp2)
    rw [hkv.1] at hhask hval
    refine ⟨hhas.1 hhask, ?_⟩
    rw [← hkv.2, hval, hget]
  · rintro ⟨hex, hv⟩
    have hhask := hhas.2 hex
    obtain ⟨p, hp, hp1⟩ := hhask
    have hval : p.2 = wgetD ((forecastSelect db today days).foldl
        (forecastStep today) { weekly := [], total := 0, snaps := [] }).weekly p.1 :=
      ((mem_weekly_iff _ hnodup p.1 p.2).1 (by simpa using hp)).2
    refine List.mem_map.2 ⟨p, by simpa using hp, ?_⟩
    rw [Prod.mk.injEq]
    refine ⟨hp1, ?_⟩
    rw [hval, hp1, hget, ← hv]

/-- C1: `forecast_revenue(days)` covers exactly the stored deals whose stage
is open and whose expected-close date is non-null and at most `today + days`;
each selected deal's weighted value lands in week bucket
`(ec - today).fdiv 7 + 1` (bucket numbers at most 0 included), the rounded
bucket totals being exactly the sums over the selected deals of each bucket;
`total_expected` is the rounded sum of the selected weighted values and
`deal_count` their number; the single open deal valued 8000 with probability
0.7 closing 15 days out yields `forecast_revenue(30)` with total 5600.00 and
count 1. -/
theorem C1_forecast_revenue_coverage (db : DB) (today days : Int) :
    (∀ d ∈ db.deals, d ∈ forecastSelect db today days ↔
        (d.stage ≠ "closed_won" ∧ d.stage ≠ "closed_lost")
        ∧ ∃ ec, d.expected_close = some ec ∧ ec ≤ today + days)
    ∧ (forecast_revenue db today days).deal_count
        = (forecastSelect db today days).length
    ∧ (forecast_revenue db today days).total_expected
        = round2 (((forecastSelect db today days).map weightedValue).sum)
    ∧ (∀ k v, (k, v) ∈ (forecast_revenue db today days).weekly_breakdown ↔
        (∃ d ∈ forecastSelect db today days,
          ∃ ec, d.expected_close = some ec ∧ Int.fdiv (ec - today) 7 + 1 = k)
        ∧ v = round2 ((((forecastSelect db today days).filter
              (inBucket today k)).map weightedValue).sum))
    ∧ (forecast_revenue fcDb 0 30).total_expected = 5600
    ∧ (forecast_revenue fcDb 0 30).deal_count = 1 := by
  refine ⟨?_, ?_, ?_, ?_, ?_, ?_⟩
  · intro d hd
    cases hec : d.expected_close with
    | none => simp [forecastSelect, List.mem_filter, DealRow.is_open, hec, hd]
    | some ec => simp [forecastSelect, List.mem_filter, DealRow.is_open, hec, hd]
  · simp only [forecast_revenue]
    rw [forecast_foldl_snaps]
    simp
  · simp only [forecast_revenue]
    rw [forecast_foldl_total]
    simp
  · intro k v
    rw [forecast_weekly_mem]
    constructor
    · rintro ⟨⟨d, hd, hb⟩, hv⟩
      obtain ⟨ec, hec, -⟩ := forecastSelect_some db today days d hd
      refine ⟨⟨d, hd, ec, hec, ?_⟩, hv⟩
      rw [hec] at hb
      simpa [weekBucket] using hb
    · rintro ⟨⟨d, hd, ec, hec, hb⟩, hv⟩
      refine ⟨⟨d, hd, ?_⟩, hv⟩
      rw [hec]
      simpa [weekBucket] using hb
  · simp [forecast_revenue, forecastSelect, fcDb, forecastStep, weightedValue,
      DealRow.is_open, round2]
    norm_num
  · simp [forecast_revenue, forecastSelect, fcDb, forecastStep, weightedValue,
      DealRow.is_open, snapOf]

/-- Witness for C1 at the concrete scenario state. -/
theorem C1_forecast_revenue_coverage_witness :
    (∀ d ∈ fcDb.deals, d ∈ forecastSelect fcDb 0 30 ↔
        (d.stage ≠ "closed_won" ∧ d.stage ≠ "closed_lost")
        ∧ ∃ ec, d.expected_close = some ec ∧ ec ≤ 0 + 30)
    ∧ (forecast_revenue fcDb 0 30).deal_count = (forecastSelect fcDb 0 30).length
    ∧ (forecast_revenue fcDb 0 30).total_expected
        = round2 (((forecastSelect fcDb 0 30).map weightedValue).sum)
    ∧ (∀ k v, (k, v) ∈ (forecast_revenue fcDb 0 30).weekly_breakdown ↔
        (∃ d ∈ forecastSelect fcDb 0 30,
          ∃ ec, d.expected_close = some ec ∧ Int.fdiv (ec - 0) 7 + 1 = k)
        ∧ v = round2 ((((forecastSelect fcDb 0 30).filter
              (inBucket 0 k)).map weightedValue).sum))
    ∧ (forecast_revenue fcDb 0 30).total_expected = 5600
    ∧ (forecast_revenue fcDb 0 30).deal_count = 1 :=
  C1_forecast_revenue_coverage fcDb 0 30

/-- C8: `weekly_breakdown` has entries only for week buckets containing at
least one selected deal, each bucket total rounded to 2 decimals, ordered by
bucket number ascending; the `deals` list is exactly the per-deal snapshots
of the selected deals sorted by expected-close date ascending. -/
theorem C8_forecast_breakdown_ordering (db : DB) (today days : Int) :
    List.Pairwise (fun p q : Int × ℚ => p.1 ≤ q.1)
      (forecast_revenue db today days).weekly_breakdown
    ∧ (∀ k, (∃ v, (k, v) ∈ (forecast_revenue db today days).weekly_breakdown) ↔
        ∃ d ∈ forecastSelect db today days,
          weekBucket today (d.expected_close.getD 0) = k)
    ∧ (∀ k v, (k, v) ∈ (forecast_revenue db today days).weekly_breakdown →
        v = round2 ((((forecastSelect db today days).filter
              (inBucket today k)).map weightedValue).sum))
    ∧ (forecast_revenue db today days).deals.Perm
        ((forecastSelect db today days).map snapOf)
    ∧ List.Pairwise (fun a b : DealSnap => a.expected_close ≤ b.expected_close)
        (forecast_revenue db today days).deals := by
  refine ⟨?_, ?_, ?_, ?_, ?_⟩
  · simp only [forecast_revenue]
    exact List.pairwise_map.2 (List.sorted_insertionSort pairLE _)
  · intro k
    constructor
    · rintro ⟨v, hv⟩
      exact ((forecast_weekly_mem db today days k v).1 hv).1
    · intro hex
      exact ⟨_, (forecast_weekly_mem db today days k _).2 ⟨hex, rfl⟩⟩
  · intro k v hm
    exact ((forecast_weekly_mem db today days k v).1 hm).2
  · simp only [forecast_revenue]
    refine (List.perm_insertionSort snapLE _).trans ?_
    rw [forecast_foldl_snaps]
    simp
  · simp only [forecast_revenue]
    exact List.sorted_insertionSort snapLE _

/-- Witness for C8 at the concrete scenario state. -/
theorem C8_forecast_breakdown_ordering_witness :
    List.Pairwise (fun p q : Int × ℚ => p.1 ≤ q.1)
      (forecast_revenue fcDb 0 30).weekly_breakdown
    ∧ (∀ k, (∃ v, (k, v) ∈ (forecast_revenue fcDb 0 30).weekly_breakdown) ↔
        ∃ d ∈ forecastSelect fcDb 0 30,
          weekBucket 0 (d.expected_close.getD 0) = k)
    ∧ (∀ k v, (k, v) ∈ (forecast_revenue fcDb 0 30).weekly_breakdown →
        v = round2 ((((forecastSelect fcDb 0 30).filter
              (inBucket 0 k)).map weightedValue).sum))
    ∧ (forecast_revenue fcDb 0 30).deals.Perm
        ((forecastSelect fcDb 0 30).map snapOf)
    ∧ List.Pairwise (fun a b : DealSnap => a.expected_close ≤ b.expected_close)
        (forecast_revenue fcDb 0 30).deals :=
  C8_forecast_breakdown_ordering fcDb 0 30

/-! Helper lemmas about the pipeline dictionary. -/

theorem lookupStage_nil (s : String) : lookupStage [] s = zeroEntry := rfl

theorem lookupStage_cons (p : String × StageEntry) (m : List (String × StageEntry))
    (s : String) : lookupStage (p :: m) s = if p.1 = s then p.2 else lookupStage m s := by
  by_cases h : p.1 = s <;> simp [lookupStage, List.find?_cons, h]

theorem lookupStage_setKey (m : List (String × StageEntry)) (k s : String)
    (v : StageEntry) :
    lookupStage (setKey m k v) s = if s = k then v else lookupStage m s := by
  induction m with
  | nil =>
    rw [show setKey [] k v = [(k, v)] from rfl, lookupStage_cons, lookupStage_nil]
    by_cases h : s = k
    · rw [if_pos h, if_pos h.symm]
    · rw [if_neg h, if_neg (fun hh => h hh.symm)]
  | cons p rest ih =>
    by_cases hp : p.1 = k
    · rw [show setKey (p :: rest) k v = (k, v) :: rest from by simp [setKey, hp],
        lookupStage_cons, lookupStage_cons]
      by_cases hs : s = k
      · rw [if_pos hs.symm, if_pos hs]
      · rw [if_neg (fun hh => hs hh.symm), if_neg hs,
          if_neg (fun hh : p.1 = s => hs (hh.symm.trans hp))]
    · rw [show setKey (p :: rest) k v = p :: setKey rest k v from by simp [setKey, hp],
        lookupStage_cons, lookupStage_cons, ih]
      by_cases hps : p.1 = s
      · rw [if_pos hps, if_pos hps, if_neg (fun h : s = k => hp (hps.trans h))]
      · rw [if_neg hps, if_neg hps]

theorem setKey_keys_of_mem (m : List (String × StageEntry)) (k : String)
    (v : StageEntry) (h : k ∈ m.map Prod.fst) :
    (setKey m k v).map Prod.fst = m.map Prod.fst := by
  induction m with
  | nil => simp at h
  | cons p rest ih =>
    by_cases hp : p.1 = k
    · simp [setKey, hp]
    · have h2 : k ∈ rest.map Prod.fst := by
        rw [List.map_cons] at h
        rcases List.mem_cons.1 h with h | h
        · exact absurd h.symm hp
        · exact h
      simp [setKey, hp, ih h2]

theorem pipeline_foldl_lookup (deals : List DealRow) (ks : List String) :
    ∀ (m : List (String × StageEntry)) (s : String),
      lookupStage (ks.foldl (fun acc t => setKey acc t (stageRow deals t)) m) s
        = if s ∈ ks then stageRow deals s else lookupStage m s := by
  induction ks with
  | nil => intro m s; simp
  | cons kk rest ih =>
    intro m s
    rw [List.foldl_cons, ih]
    by_cases hs : s ∈ rest
    · simp [hs]
    · rw [if_neg hs, lookupStage_setKey]
      by_cases he : s = kk
      · subst he; simp
      · rw [if_neg he, if_neg (by simp [List.mem_cons, he, hs])]

theorem pipeline_foldl_keys (deals : List DealRow) (ks : List String) :
    ∀ m : List (String × StageEntry), (∀ t ∈ ks, t ∈ m.map Prod.fst) →
      (ks.foldl (fun acc t => setKey acc t (stageRow deals t)) m).map Prod.fst
        = m.map Prod.fst := by
  induction ks with
  | nil => intro m _; rfl
  | cons kk rest ih =>
    intro m h
    have hk : kk ∈ m.map Prod.fst := h kk (by simp)
    rw [List.foldl_cons, ih _ (fun t ht => by
      rw [setKey_keys_of_mem m kk _ hk]
      exact h t (List.mem_cons.2 (Or.inr ht))),
      setKey_keys_of_mem m kk _ hk]

theorem mem_groupKeys_foldl (deals : List DealRow) :
    ∀ (acc : List String) (s : String),
      (s ∈ deals.foldl
          (fun acc d => if d.stage ∈ acc then acc else acc ++ [d.stage]) acc
        ↔ s ∈ acc ∨ ∃ d ∈ deals, d.stage = s) := by
  induction deals with
  | nil => intro acc s; simp
  | cons d rest ih =>
    intro acc s
    rw [List.foldl_cons, ih]
    by_cases hd : d.stage ∈ acc
    · rw [if_pos hd]
      constructor
      · rintro (h | ⟨x, hx, hs⟩)
        · exact Or.inl h
        · exact Or.inr ⟨x, List.mem_cons.2 (Or.inr hx), hs⟩
      · rintro (h | ⟨x, hx, hs⟩)
        · exact Or.inl h
        · rcases List.mem_cons.1 hx with rfl | hx
          · exact Or.inl (hs ▸ hd)
          · exact Or.inr ⟨x, hx, hs⟩
    · rw [if_neg hd]
      constructor
      · rintro (h | ⟨x, hx, hs⟩)
        · rcases List.mem_append.1 h with h | h
          · exact Or.inl h
          · exact Or.inr ⟨d, List.mem_cons.2 (Or.inl rfl), (List.mem_singleton.1 h).symm⟩
        · exact Or.inr ⟨x, List.mem_cons.2 (Or.inr hx), hs⟩
      · rintro (h | ⟨x, hx, hs⟩)
        · exact Or.inl (List.mem_append.2 (Or.inl h))
        · rcases List.mem_cons.1 hx with rfl | hx
          · exact Or.inl (List.mem_append.2 (Or.inr (by simp [hs])))
          · exact Or.inr ⟨x, hx, hs⟩

theorem mem_groupKeys (deals : List DealRow) (s : String) :
    s ∈ groupKeys deals ↔ ∃ d ∈ deals, d.stage = s := by
  rw [groupKeys, mem_groupKeys_foldl]
  simp

theorem lookupStage_init (ls : List String) (s : String) :
    lookupStage (ls.map (fun t => (t, zeroEntry))) s = zeroEntry := by
  induction ls with
  | nil => rfl
  | cons t rest ih =>
    rw [List.map_cons, lookupStage_cons]
    by_cases h : t = s <;> simp [h, ih]

theorem round2_zero : round2 0 = 0 := by
  unfold round2
  norm_num

theorem stageRow_absent (deals : List DealRow) (s : String)
    (h : ∀ d ∈ deals, d.stage ≠ s) : stageRow deals s = zeroEntry := by
  unfold stageRow
  have hf : deals.filter (fun d => decide (d.stage = s)) = [] := by
    rw [List.filter_eq_nil_iff]
    intro d hd
    simpa using h d hd
  rw [hf]
  simp [zeroEntry, round2_zero]

theorem pipeline_lookup (db : DB) (s : String) :
    lookupStage (get_deal_pipeline db).stages s = stageRow db.deals s := by
  simp only [get_deal_pipeline]
  rw [pipeline_foldl_lookup]
  by_cases h : s ∈ groupKeys db.deals
  · rw [if_pos h]
  · rw [if_neg h, lookupStage_init]
    refine (stageRow_absent db.deals s ?_).symm
    intro d hd hds
    exact h ((mem_groupKeys db.deals s).2 ⟨d, hd, hds⟩)

theorem pipeline_keys (db : DB) (h : stagesCanonical db) :
    (get_deal_pipeline db).stages.map Prod.fst = DEAL_STAGES := by
  have hinit : (DEAL_STAGES.map (fun s => (s, zeroEntry))).map Prod.fst
      = DEAL_STAGES := rfl
  simp only [get_deal_pipeline]
  rw [pipeline_foldl_keys db.deals (groupKeys db.deals) _ (fun t ht => by
    rw [hinit]
    obtain ⟨d, hd, hds⟩ := (mem_groupKeys db.deals t).1 ht
    exact hds ▸ h d hd), hinit]

/-- C2: `get_deal_pipeline()` keys its stages mapping by exactly the six
canonical stages (absent stages zeroed), each entry carrying the stage's
deal count and its summed raw and weighted values rounded to 2 decimals;
`pipeline_value` and `pipeline_weighted` are the exact sums of the
per-stage totals over only the four open stages; the Alice/Bob scenario
gives 12000.00 and 4100.00. -/
theorem C2_get_deal_pipeline_spec (db : DB) (h : stagesCanonical db) :
    (get_deal_pipeline db).stages.map Prod.fst = DEAL_STAGES
    ∧ OPEN_STAGES = ["lead", "qualified", "proposal", "negotiation"]
    ∧ (∀ s, lookupStage (get_deal_pipeline db).stages s =
        { count := (db.deals.filter (fun d => decide (d.stage = s))).length,
          total_value := round2 (((db.deals.filter
              (fun d => decide (d.stage = s))).map (fun d => d.value)).sum),
          weighted_value := round2 (((db.deals.filter
              (fun d => decide (d.stage = s))).map weightedValue).sum) })
    ∧ (get_deal_pipeline db).pipeline_value
        = (OPEN_STAGES.map
            (fun s => (lookupStage (get_deal_pipeline db).stages s).total_value)).sum
    ∧ (get_deal_pipeline db).pipeline_weighted
        = (OPEN_STAGES.map
            (fun s => (lookupStage (get_deal_pipeline db).stages s).weighted_value)).sum
    ∧ (get_deal_pipeline pipeDb).pipeline_value = 12000
    ∧ (get_deal_pipeline pipeDb).pipeline_weighted = 4100 := by
  refine ⟨pipeline_keys db h, rfl, ?_, ?_, ?_, ?_, ?_⟩
  · intro s
    rw [pipeline_lookup]
    rfl
  · have hform : ∀ x ∈ OPEN_STAGES.map
        (fun s => (lookupStage (get_deal_pipeline db).stages s).total_value),
        ∃ n : ℤ, x = (n : ℚ) / 100 := by
      intro x hx
      rcases List.mem_map.1 hx with ⟨s, -, rfl⟩
      rw [pipeline_lookup]
      simp only [stageRow]
      exact round2_form _
    obtain ⟨n, hn⟩ := sum_int_div_100 _ hform
    have hv : (get_deal_pipeline db).pipeline_value
        = round2 ((OPEN_STAGES.map
            (fun s => (lookupStage (get_deal_pipeline db).stages s).total_value)).sum) := rfl
    rw [hv, hn, round2_int_div, ← hn]
  · have hform : ∀ x ∈ OPEN_STAGES.map
        (fun s => (lookupStage (get_deal_pipeline db).stages s).weighted_value),
        ∃ n : ℤ, x = (n : ℚ) / 100 := by
      intro x hx
      rcases List.mem_map.1 hx with ⟨s, -, rfl⟩
      rw [pipeline_lookup]
      simp only [stageRow]
      exact round2_form _
    obtain ⟨n, hn⟩ := sum_int_div_100 _ hform
    have hv : (get_deal_pipeline db).pipeline_weighted
        = round2 ((OPEN_STAGES.map
            (fun s => (lookupStage (get_deal_pipeline db).stages s).weighted_value)).sum) := rfl
    rw [hv, hn, round2_int_div, ← hn]
  · simp [get_deal_pipeline, pipeDb, groupKeys, stageRow, setKey, lookupStage,
      OPEN_STAGES, DEAL_STAGES, weightedValue, round2, zeroEntry]
    norm_num
  · simp [get_deal_pipeline, pipeDb, groupKeys, stageRow, setKey, lookupStage,
      OPEN_STAGES, DEAL_STAGES, weightedValue, round2, zeroEntry]
    norm_num

/-- Witness for C2 at the concrete scenario state, discharging the
canonical-stages hypothesis by evaluation. -/
theorem C2_get_deal_pipeline_spec_witness :
    stagesCanonical pipeDb
    ∧ ((get_deal_pipeline pipeDb).stages.map Prod.fst = DEAL_STAGES
    ∧ OPEN_STAGES = ["lead", "qualified", "proposal", "negotiation"]
    ∧ (∀ s, lookupStage (get_deal_pipeline pipeDb).stages s =
        { count := (pipeDb.deals.filter (fun d => decide (d.stage = s))).length,
          total_value := round2 (((pipeDb.deals.filter
              (fun d => decide (d.stage = s))).map (fun d => d.value)).sum),
          weighted_value := round2 (((pipeDb.deals.filter
              (fun d => decide (d.stage = s))).map weightedValue).sum) })
    ∧ (get_deal_pipeline pipeDb).pipeline_value
        = (OPEN_STAGES.map
            (fun s => (lookupStage (get_deal_pipeline pipeDb).stages s).total_value)).sum
    ∧ (get_deal_pipeline pipeDb).pipeline_weighted
        = (OPEN_STAGES.map
            (fun s => (lookupStage (get_deal_pipeline pipeDb).stages s).weighted_value)).sum
    ∧ (get_deal_pipeline pipeDb).pipeline_value = 12000
    ∧ (get_deal_pipeline pipeDb).pipeline_weighted = 4100) :=
  ⟨by decide, C2_get_deal_pipeline_spec pipeDb (by decide)⟩

/-! Helper lemmas about the follow-up queue. -/

theorem fuQualifies_iff (db : DB) (cutoff : Int) (r : ContactRow) :
    fuQualifies db cutoff r = true ↔
      openDealsOf db r.id ≠ []
      ∧ (r.last_contact = none ∨ ∃ t, r.last_contact = some t ∧ t < cutoff) := by
  cases hlc : r.last_contact <;> simp [fuQualifies, isStale, hlc]

theorem mem_follow_up_queue (db : DB) (now dys : Int) (f : FollowUp) :
    f ∈ get_follow_up_queue db now dys ↔
      ∃ r ∈ db.contacts, fuQualifies db (now - dys * 86400000000) r
        ∧ f = followUpRow db now r := by
  simp only [get_follow_up_queue]
  constructor
  · intro hm
    rcases List.mem_map.1 hm with ⟨r, hr, rfl⟩
    have h2 : r ∈ db.contacts.filter (fuQualifies db (now - dys * 86400000000)) := by
      simpa using hr
    exact ⟨r, (List.mem_filter.1 h2).1, (List.mem_filter.1 h2).2, rfl⟩
  · rintro ⟨r, hr, hq, rfl⟩
    exact List.mem_map.2 ⟨r, by simp [List.mem_filter, hr, hq], rfl⟩

/-- Counterexample to C3 as stated: with one never-contacted contact owning
a single open deal of weighted value 1 * 0.005 = 0.005, the queue entry's
`open_deal_weighted_value` is the rounded 0.01, not the claimed raw sum
0.005. -/
theorem C3_follow_up_queue_unrounded_cex :
    (get_follow_up_queue c3CexDb 0 1).map (fun f => f.open_deal_weighted_value)
      = [1 / 100]
    ∧ ((openDealsOf c3CexDb "c1").map weightedValue).sum = 1 / 200
    ∧ (1 / 100 : ℚ) ≠ 1 / 200 := by
  refine ⟨?_, ?_, by norm_num⟩
  · simp [get_follow_up_queue, c3CexDb, fuQualifies, openDealsOf, isStale,
      DealRow.is_open, followUpRow, followUpWeight, daysAgo, weightedValue,
      List.insertionSort, List.orderedInsert, round2]
    norm_num
  · simp [openDealsOf, c3CexDb, weightedValue, DealRow.is_open]

/-- C3 (amended): the queue holds exactly one entry per stored contact that
owns at least one open deal and is never-contacted or last contacted
strictly before now minus `days_overdue` days; each entry's
`open_deal_weighted_value` is the sum of value times probability over that
contact's open deals, rounded to 2 decimal places (the rounding is the
amendment); entries are sorted descending by that sum; a contact without
open deals never appears; Bob is included and fresh Alice excluded at
`days_overdue = 1`. -/
theorem C3_follow_up_queue_amended (db : DB) (now days_overdue : Int)
    (hids : contactIdsUnique db) :
    (get_follow_up_queue db now days_overdue).Perm
        ((db.contacts.filter
          (fuQualifies db (now - days_overdue * 86400000000))).map (followUpRow db now))
    ∧ (∀ r ∈ db.contacts,
        ((∃ f ∈ get_follow_up_queue db now days_overdue, f.contact_id = r.id) ↔
          openDealsOf db r.id ≠ []
          ∧ (r.last_contact = none
             ∨ ∃ t, r.last_contact = some t ∧ t < now - days_overdue * 86400000000)))
    ∧ (∀ f ∈ get_follow_up_queue db now days_overdue,
        ∃ r ∈ db.contacts, openDealsOf db r.id ≠ [] ∧ f.contact_id = r.id
          ∧ f.open_deal_weighted_value
              = round2 (((openDealsOf db r.id).map weightedValue).sum))
    ∧ List.Pairwise
        (fun a b : FollowUp => b.open_deal_weighted_value ≤ a.open_deal_weighted_value)
        (get_follow_up_queue db now days_overdue)
    ∧ (∃ f ∈ get_follow_up_queue fuDb 0 1, f.contact_id = "b")
    ∧ (∀ f ∈ get_follow_up_queue fuDb 0 1, f.contact_id ≠ "a") := by
  refine ⟨?_, ?_, ?_, ?_, ?_, ?_⟩
  · simp only [get_follow_up_queue]
    exact (List.perm_insertionSort (fuGE db) _).map (followUpRow db now)
  · intro r hr
    constructor
    · rintro ⟨f, hf, hfid⟩
      obtain ⟨r2, hr2, hq2, rfl⟩ := (mem_follow_up_queue db now days_overdue f).1 hf
      have heq : r2 = r := List.inj_on_of_nodup_map hids hr2 hr hfid
      subst heq
      exact (fuQualifies_iff db _ r2).1 hq2
    · intro hrhs
      exact ⟨followUpRow db now r, (mem_follow_up_queue db now days_overdue _).2
        ⟨r, hr, (fuQualifies_iff db _ r).2 hrhs, rfl⟩, rfl⟩
  · intro f hf
    obtain ⟨r, hr, hq, rfl⟩ := (mem_follow_up_queue db now days_overdue f).1 hf
    exact ⟨r, hr, ((fuQualifies_iff db _ r).1 hq).1, rfl, rfl⟩
  · simp only [get_follow_up_queue]
    refine List.pairwise_map.2 ?_
    exact (List.sorted_insertionSort (fuGE db) _).imp (fun hab => round2_mono hab)
  · simp [get_follow_up_queue, fuDb, fuQualifies, openDealsOf, isStale,
      DealRow.is_open, followUpRow, followUpWeight, daysAgo, weightedValue,
      List.insertionSort, List.orderedInsert]
  · simp [get_follow_up_queue, fuDb, fuQualifies, openDealsOf, isStale,
      DealRow.is_open, followUpRow, followUpWeight, daysAgo, weightedValue,
      List.insertionSort, List.orderedInsert]

/-- Witness for the amended C3 at the concrete scenario state, discharging
the primary-key hypothesis by evaluation. -/
theorem C3_follow_up_queue_amended_witness :
    contactIdsUnique fuDb
    ∧ ((get_follow_up_queue fuDb 0 1).Perm
        ((fuDb.contacts.filter
          (fuQualifies fuDb (0 - 1 * 86400000000))).map (followUpRow fuDb 0))
    ∧ (∀ r ∈ fuDb.contacts,
        ((∃ f ∈ get_follow_up_queue fuDb 0 1, f.contact_id = r.id) ↔
          openDealsOf fuDb r.id ≠ []
          ∧ (r.last_contact = none
             ∨ ∃ t, r.last_contact = some t ∧ t < 0 - 1 * 86400000000)))
    ∧ (∀ f ∈ get_follow_up_queue fuDb 0 1,
        ∃ r ∈ fuDb.contacts, openDealsOf fuDb r.id ≠ [] ∧ f.contact_id = r.id
          ∧ f.open_deal_weighted_value
              = round2 (((openDealsOf fuDb r.id).map weightedValue).sum))
    ∧ List.Pairwise
        (fun a b : FollowUp => b.open_deal_weighted_value ≤ a.open_deal_weighted_value)
        (get_follow_up_queue fuDb 0 1)
    ∧ (∃ f ∈ get_follow_up_queue fuDb 0 1, f.contact_id = "b")
    ∧ (∀ f ∈ get_follow_up_queue fuDb 0 1, f.contact_id ≠ "a")) :=
  ⟨by decide, C3_follow_up_queue_amended fuDb 0 1 (by decide)⟩

/-- C4: `advance_deal_stage` rejects a non-canonical stage with an
invalid-argument error before any write, leaving the whole state unchanged;
for a canonical stage it sets both the matching deal's stage and its
probability to the fixed `STAGE_PROBS` default, discarding any prior custom
probability; `qualified` maps to exactly 0.20. -/
theorem C4_advance_deal_stage_validation (db : DB) (deal_id stage : String) :
    (stage ∉ DEAL_STAGES →
      advance_deal_stage db deal_id stage
        = (db, Except.error "ValueError: Unknown stage"))
    ∧ (stage ∈ DEAL_STAGES →
        (advance_deal_stage db deal_id stage).1.contacts = db.contacts
        ∧ (advance_deal_stage db deal_id stage).1.interactions = db.interactions
        ∧ (∀ d ∈ db.deals, d.id = deal_id →
            { d with stage := stage, probability := stageProb stage }
              ∈ (advance_deal_stage db deal_id stage).1.deals)
        ∧ (∀ d ∈ db.deals, d.id ≠ deal_id →
            d ∈ (advance_deal_stage db deal_id stage).1.deals))
    ∧ stageProb "qualified" = 20 / 100 := by
  refine ⟨?_, ?_, by simp [stageProb, STAGE_PROBS]⟩
  · intro h
    simp [advance_deal_stage, h]
  · intro h
    simp only [advance_deal_stage, if_neg (not_not_intro h)]
    refine ⟨trivial, trivial, ?_, ?_⟩
    · intro d hd hid
      exact List.mem_map.2 ⟨d, hd, by simp [hid]⟩
    · intro d hd hid
      exact List.mem_map.2 ⟨d, hd, by simp [hid]⟩

/-- Witness for C4: the bogus stage errors on the concrete state; advancing
to `qualified` rewrites the stored deal with the 0.20 default. -/
theorem C4_advance_deal_stage_validation_witness :
    advance_deal_stage c4Db "d1" "bogus"
      = (c4Db, Except.error "ValueError: Unknown stage")
    ∧ ({ id := "d1", contact_id := "c1", title := "Adv", value := 5000,
         stage := "qualified", probability := stageProb "qualified",
         expected_close := none, notes := "", created_at := 0 } : DealRow)
        ∈ (advance_deal_stage c4Db "d1" "qualified").1.deals
    ∧ stageProb "qualified" = 20 / 100 := by
  refine ⟨(C4_advance_deal_stage_validation c4Db "d1" "bogus").1 (by decide), ?_,
    (C4_advance_deal_stage_validation c4Db "d1" "bogus").2.2⟩
  have h := ((C4_advance_deal_stage_validation c4Db "d1" "qualified").2.1
    (by decide)).2.2.1
  exact h _ (List.mem_singleton_self _) rfl

/-- C10: for a canonical stage and a deal id matching no stored deal,
`advance_deal_stage` returns false (no error) and leaves the state
unchanged. -/
theorem C10_advance_missing_deal (db : DB) (deal_id stage : String)
    (hs : stage ∈ DEAL_STAGES) (hmiss : ∀ d ∈ db.deals, d.id ≠ deal_id) :
    advance_deal_stage db deal_id stage = (db, Except.ok false) := by
  simp only [advance_deal_stage, if_neg (not_not_intro hs)]
  have hmap : db.deals.map (fun d => if d.id = deal_id then
      { d with stage := stage, probability := stageProb stage } else d)
        = db.deals := by
    conv_rhs => rw [← List.map_id db.deals]
    exact List.map_congr_left (fun d hd => by rw [if_neg (hmiss d hd)]; rfl)
  have hany : db.deals.any (fun d => decide (d.id = deal_id)) = false := by
    rw [List.any_eq_false]
    intro d hd
    simpa using hmiss d hd
  rw [hmap, hany]

/-- Witness for C10 on the concrete one-deal state with an unknown id. -/
theorem C10_advance_missing_deal_witness :
    ("qualified" ∈ DEAL_STAGES ∧ ∀ d ∈ c4Db.deals, d.id ≠ "nope")
    ∧ advance_deal_stage c4Db "nope" "qualified" = (c4Db, Except.ok false) :=
  ⟨⟨by decide, by decide⟩,
   C10_advance_missing_deal c4Db "nope" "qualified" (by decide) (by decide)⟩

/-! Helper lemma: `find?` over an id-preserving row update. -/

theorem find?_map_id_pres (l : List ContactRow) (cid : String)
    (f : ContactRow → ContactRow) (hf : ∀ r, (f r).id = r.id) :
    (l.map f).find? (fun r => decide (r.id = cid))
      = (l.find? (fun r => decide (r.id = cid))).map f := by
  induction l with
  | nil => rfl
  | cons a rest ih =>
    rw [List.map_cons]
    by_cases h : a.id = cid
    · rw [List.find?_cons_of_pos _ (by simp [hf, h]),
        List.find?_cons_of_pos _ (by simp [h])]
      rfl
    · rw [List.find?_cons_of_neg _ (by simp [hf, h]),
        List.find?_cons_of_neg _ (by simp [h]), ih]

/-- C5: `log_interaction` unconditionally overwrites the owning contact's
last-contact timestamp with the interaction's occurrence time — last writer
wins, even when the prior timestamp is later. -/
theorem C5_log_interaction_overwrites (db : DB) (c ty notes : String)
    (deal_id : Option String) (outcome ix_id : String) (now : Int)
    (hex : ∃ r ∈ db.contacts, r.id = c) :
    (log_interaction db c ty notes deal_id outcome ix_id now).2.occurred_at = now
    ∧ ∃ ct, get_contact (log_interaction db c ty notes deal_id outcome ix_id now).1 c
        = some ct ∧ ct.last_contact = some now := by
  refine ⟨rfl, ?_⟩
  obtain ⟨r, hr, hrc⟩ := hex
  have hs : (db.contacts.find? (fun r => decide (r.id = c))).isSome := by
    rw [List.find?_isSome]
    exact ⟨r, hr, by simpa using hrc⟩
  obtain ⟨r0, hr0⟩ := Option.isSome_iff_exists.1 hs
  have hp : r0.id = c := by simpa using List.find?_some hr0
  simp only [log_interaction, get_contact]
  rw [find?_map_id_pres _ _ _ (fun r => by by_cases h : r.id = c <;> simp [h]), hr0]
  refine ⟨_, rfl, ?_⟩
  show (rowToContact (if r0.id = c
      then { r0 with last_contact := some now } else r0)).last_contact = some now
  rw [if_pos hp]
  rfl

/-- Witness for C5 on a contact whose stored last-contact timestamp 999 is
later than the newly logged instant 5. -/
theorem C5_log_interaction_overwrites_witness :
    (∃ r ∈ c5Db.contacts, r.id = "c")
    ∧ ((log_interaction c5Db "c" "call" "hello" none "" "i1" 5).2.occurred_at = 5
    ∧ ∃ ct, get_contact (log_interaction c5Db "c" "call" "hello" none "" "i1" 5).1 "c"
        = some ct ∧ ct.last_contact = some 5) :=
  ⟨by decide, C5_log_interaction_overwrites c5Db "c" "call" "hello" none "" "i1" 5
    (by decide)⟩

/-! Helper lemmas for the contact round trip. -/

theorem find?_append_of_none {α : Type} (p : α → Bool) (l1 l2 : List α)
    (h : l1.find? p = none) : (l1 ++ l2).find? p = l2.find? p := by
  induction l1 with
  | nil => rfl
  | cons a rest ih =>
    by_cases hp : p a
    · rw [List.find?_cons_of_pos _ hp] at h
      exact absurd h (by simp)
    · rw [List.find?_cons_of_neg _ hp] at h
      rw [List.cons_append, List.find?_cons_of_neg _ hp, ih h]

theorem splitTags_joinTags (ts : List String) (h1 : ∀ t ∈ ts, t ≠ "")
    (h2 : ∀ t ∈ ts, ',' ∉ t.data) : splitTags (joinTags ts) = ts := by
  rcases ts with _ | ⟨t0, rest⟩
  · rfl
  · unfold splitTags joinTags
    have hx : ∀ l ∈ (t0 :: rest).map String.data, ',' ∉ l := by
      intro l hl
      rcases List.mem_map.1 hl with ⟨t, ht, rfl⟩
      exact h2 t ht
    rw [show (String.mk ([','].intercalate ((t0 :: rest).map String.data))).data
        = [','].intercalate ((t0 :: rest).map String.data) from rfl,
      List.splitOn_intercalate _ ',' hx (by simp), List.map_map,
      show String.mk ∘ String.data = id from funext (fun t => rfl), List.map_id]
    rw [List.filter_eq_self.2 ?_]
    intro t ht
    simpa using h1 t ht

/-- C6: a valid inserted contact (nonempty, comma-free tags) is returned
unchanged by both `get_contact` on its id and `find_contact_by_email` on its
email; the tags travel as a comma-joined string and are reconstructed on
read with empty entries dropped. -/
theorem C6_contact_round_trip (db : DB) (c : Contact)
    (htags : ∀ t ∈ c.tags, t ≠ "" ∧ ',' ∉ t.data)
    (hfresh : ∀ r ∈ db.contacts, r.id ≠ c.id ∧ r.email ≠ c.email) :
    (add_contact db c).2 = Except.ok c
    ∧ get_contact (add_contact db c).1 c.id = some c
    ∧ find_contact_by_email (add_contact db c).1 c.email = some c := by
  have hnone : db.contacts.any
      (fun r => decide (r.id = c.id) || decide (r.email = c.email)) = false := by
    rw [List.any_eq_false]
    intro r hr
    simp [(hfresh r hr).1, (hfresh r hr).2]
  have hrt : rowToContact (contactToRow c) = c := by
    simp only [rowToContact, contactToRow]
    rw [splitTags_joinTags c.tags (fun t ht => (htags t ht).1)
      (fun t ht => (htags t ht).2)]
  have hdb : (add_contact db c).1
      = { db with contacts := db.contacts ++ [contactToRow c] } := by
    simp [add_contact, hnone]
  refine ⟨by simp [add_contact, hnone], ?_, ?_⟩
  · rw [hdb]
    show ((db.contacts ++ [contactToRow c]).find?
        (fun r => decide (r.id = c.id))).map rowToContact = some c
    have hpref : db.contacts.find? (fun r => decide (r.id = c.id)) = none := by
      rw [List.find?_eq_none]
      intro r hr
      simpa using (hfresh r hr).1
    rw [find?_append_of_none _ _ _ hpref,
      List.find?_cons_of_pos _ (by simp [contactToRow])]
    simp [hrt]
  · rw [hdb]
    show ((db.contacts ++ [contactToRow c]).find?
        (fun r => decide (r.email = c.email))).map rowToContact = some c
    have hpref : db.contacts.find? (fun r => decide (r.email = c.email)) = none := by
      rw [List.find?_eq_none]
      intro r hr
      simpa using (hfresh r hr).2
    rw [find?_append_of_none _ _ _ hpref,
      List.find?_cons_of_pos _ (by simp [contactToRow])]
    simp [hrt]

/-- Witness for C6: the tagged contact round-trips through an empty store. -/
theorem C6_contact_round_trip_witness :
    (∀ t ∈ c6Contact.tags, t ≠ "" ∧ ',' ∉ t.data)
    ∧ (∀ r ∈ emptyDb.contacts, r.id ≠ c6Contact.id ∧ r.email ≠ c6Contact.email)
    ∧ ((add_contact emptyDb c6Contact).2 = Except.ok c6Contact
    ∧ get_contact (add_contact emptyDb c6Contact).1 c6Contact.id = some c6Contact
    ∧ find_contact_by_email (add_contact emptyDb c6Contact).1 c6Contact.email
        = some c6Contact) :=
  ⟨by decide, by decide,
   C6_contact_round_trip emptyDb c6Contact (by decide) (by decide)⟩

/-! Helper lemmas about `update_contact`. -/

theorem update_contact_cases (db : DB) (cid : String)
    (kwargs : List (String × String)) :
    ((kwargs.filter (fun kv => decide (kv.1 ∈ ALLOWED_FIELDS))).isEmpty = true
      ∧ update_contact db cid kwargs = (db, Except.ok false))
    ∨ (emailConflict db cid
          (kwargs.filter (fun kv => decide (kv.1 ∈ ALLOWED_FIELDS))) = true
      ∧ update_contact db cid kwargs
          = (db, Except.error "IntegrityError: UNIQUE constraint failed: contacts.email"))
    ∨ ((kwargs.filter (fun kv => decide (kv.1 ∈ ALLOWED_FIELDS))).isEmpty = false
      ∧ emailConflict db cid
          (kwargs.filter (fun kv => decide (kv.1 ∈ ALLOWED_FIELDS))) = false
      ∧ update_contact db cid kwargs
          = ({ db with contacts := db.contacts.map (fun r =>
              if r.id = cid then
                applyUpdates r (kwargs.filter (fun kv => decide (kv.1 ∈ ALLOWED_FIELDS)))
              else r) },
             Except.ok (db.contacts.any (fun r => decide (r.id = cid))))) := by
  by_cases h1 : (kwargs.filter (fun kv => decide (kv.1 ∈ ALLOWED_FIELDS))).isEmpty = true
  · exact Or.inl ⟨h1, by simp [update_contact, h1]⟩
  · by_cases h2 : emailConflict db cid
        (kwargs.filter (fun kv => decide (kv.1 ∈ ALLOWED_FIELDS))) = true
    · exact Or.inr (Or.inl ⟨h2, by simp [update_contact, h1, h2]⟩)
    · refine Or.inr (Or.inr ⟨by simpa using h1, by simpa using h2, ?_⟩)
      simp [update_contact, h1, h2]

theorem update_preserves_emailsUnique (db : DB) (cid : String)
    (kwargs : List (String × String)) (hids : contactIdsUnique db)
    (hem : emailsUnique db) : emailsUnique (update_contact db cid kwargs).1 := by
  rcases update_contact_cases db cid kwargs with ⟨-, heq⟩ | ⟨-, heq⟩ | ⟨-, hc, heq⟩
  · rw [heq]; exact hem
  · rw [heq]; exact hem
  · rw [heq]
    have hg : ∀ r ∈ db.contacts, r.id = cid → ∀ r2 ∈ db.contacts, r2.id ≠ cid →
        r2.email ≠ (applyUpdates r
          (kwargs.filter (fun kv => decide (kv.1 ∈ ALLOWED_FIELDS)))).email := by
      intro r hr hrid r2 hr2 hr2id heqe
      have hcc : emailConflict db cid
          (kwargs.filter (fun kv => decide (kv.1 ∈ ALLOWED_FIELDS))) = true := by
        unfold emailConflict
        rw [List.any_eq_true]
        refine ⟨r, hr, ?_⟩
        simp only [Bool.and_eq_true, decide_eq_true_eq, List.any_eq_true]
        exact ⟨hrid, r2, hr2, hr2id, heqe⟩
      rw [hc] at hcc
      exact absurd hcc (by simp)
    show (List.map ContactRow.email (db.contacts.map (fun r =>
        if r.id = cid then applyUpdates r
          (kwargs.filter (fun kv => decide (kv.1 ∈ ALLOWED_FIELDS))) else r))).Nodup
    rw [List.map_map]
    refine List.pairwise_map.2 ?_
    have hidsP : List.Pairwise (fun a b : ContactRow => ¬ a.id = b.id) db.contacts :=
      List.pairwise_map.1 hids
    have hemP : List.Pairwise (fun a b : ContactRow => ¬ a.email = b.email) db.contacts :=
      List.pairwise_map.1 hem
    refine List.Pairwise.imp_of_mem ?_ (hidsP.and hemP)
    intro a b ha hb hab
    obtain ⟨hid, hemail⟩ := hab
    by_cases hac : a.id = cid
    · have hbc : ¬ b.id = cid := fun h => hid (hac.trans h.symm)
      simp only [Function.comp, if_pos hac, if_neg hbc]
      exact fun h => hg a ha hac b hb hbc h.symm
    · by_cases hbc : b.id = cid
      · simp only [Function.comp, if_neg hac, if_pos hbc]
        exact hg b hb hbc a ha hac
      · simp only [Function.comp, if_neg hac, if_neg hbc]
        exact hemail

/-- C7: inserting a contact whose email is already stored fails and leaves
the contacts table unchanged, and every mutating operation preserves global
email uniqueness. -/
theorem C7_email_uniqueness_invariant :
    (∀ (db : DB) (c : Contact), (∃ r ∈ db.contacts, r.email = c.email) →
      add_contact db c
        = (db, Except.error "IntegrityError: UNIQUE constraint failed"))
    ∧ (∀ (db : DB) (c : Contact), emailsUnique db →
        emailsUnique (add_contact db c).1)
    ∧ (∀ (db : DB) (cid : String) (kwargs : List (String × String)),
        contactIdsUnique db → emailsUnique db →
          emailsUnique (update_contact db cid kwargs).1)
    ∧ (∀ (db : DB) (c ty notes : String) (dl : Option String) (oc ixid : String)
        (now : Int), emailsUnique db →
          emailsUnique (log_interaction db c ty notes dl oc ixid now).1)
    ∧ (∀ (db : DB) (d : DealRow), emailsUnique db → emailsUnique (add_deal db d).1)
    ∧ (∀ (db : DB) (did s : String), emailsUnique db →
        emailsUnique (advance_deal_stage db did s).1) := by
  refine ⟨?_, ?_, fun db cid kw hi he => update_preserves_emailsUnique db cid kw hi he,
    ?_, ?_, ?_⟩
  · rintro db c ⟨r, hr, hre⟩
    have hany : db.contacts.any
        (fun r => decide (r.id = c.id) || decide (r.email = c.email)) = true := by
      rw [List.any_eq_true]
      exact ⟨r, hr, by simp [hre]⟩
    simp [add_contact, hany]
  · intro db c h
    by_cases hany : db.contacts.any
        (fun r => decide (r.id = c.id) || decide (r.email = c.email)) = true
    · simpa [add_contact, hany] using h
    · have hne : ∀ r ∈ db.contacts, ¬ r.email = c.email := by
        intro r hr he
        rw [List.any_eq_true] at hany
        exact hany ⟨r, hr, by simp [he]⟩
      simp only [Bool.not_eq_true] at hany
      have hdb : (add_contact db c).1
          = { db with contacts := db.contacts ++ [contactToRow c] } := by
        simp [add_contact, hany]
      rw [hdb]
      show (List.map ContactRow.email (db.contacts ++ [contactToRow c])).Nodup
      rw [List.map_append, List.nodup_append]
      refine ⟨h, List.nodup_singleton _, ?_⟩
      intro x hx hx2
      rcases List.mem_map.1 hx with ⟨r, hr, rfl⟩
      have hxe : r.email = c.email := by simpa [contactToRow] using hx2
      exact hne r hr hxe
  · intro db c ty notes dl oc ixid now h
    show (List.map ContactRow.email (db.contacts.map (fun r =>
        if r.id = c then { r with last_contact := some now } else r))).Nodup
    rw [List.map_map]
    have hco : ContactRow.email ∘ (fun r =>
        if r.id = c then { r with last_contact := some now } else r)
          = ContactRow.email := by
      funext r
      by_cases hrc : r.id = c <;> simp [hrc]
    rw [hco]
    exact h
  · intro db d h
    have hcon : (add_deal db d).1.contacts = db.contacts := by
      by_cases hany : db.deals.any (fun x => decide (x.id = d.id)) = true <;>
        simp [add_deal, hany]
    unfold emailsUnique
    rw [hcon]
    exact h
  · intro db did s h
    have hcon : (advance_deal_stage db did s).1.contacts = db.contacts := by
      by_cases hs : s ∉ DEAL_STAGES <;> simp [advance_deal_stage, hs]
    unfold emailsUnique
    rw [hcon]
    exact h

/-- Witness for C7: inserting a second contact with Alice's email fails and
leaves the table unchanged; uniqueness is preserved. -/
theorem C7_email_uniqueness_invariant_witness :
    (∃ r ∈ c7Db.contacts, r.email = c7Dup.email)
    ∧ add_contact c7Db c7Dup
        = (c7Db, Except.error "IntegrityError: UNIQUE constraint failed")
    ∧ emailsUnique c7Db
    ∧ emailsUnique (add_contact c7Db c7Dup).1 :=
  ⟨by decide, C7_email_uniqueness_invariant.1 c7Db c7Dup (by decide), by decide,
   C7_email_uniqueness_invariant.2.1 c7Db c7Dup (by decide)⟩

/-! Closed form of the SET clause on one row. -/

theorem applyUpdates_closed_form (updates : List (String × String)) :
    ∀ r : ContactRow, (updates.map Prod.fst).Nodup →
      (∀ kv ∈ updates, kv.1 ∈ ALLOWED_FIELDS) →
      applyUpdates r updates =
        { id := r.id,
          name := (suppliedVal updates "name").getD r.name,
          email := (suppliedVal updates "email").getD r.email,
          phone := (suppliedVal updates "phone").getD r.phone,
          company := (suppliedVal updates "company").getD r.company,
          tags := (suppliedVal updates "tags").getD r.tags,
          notes := (suppliedVal updates "notes").getD r.notes,
          created_at := r.created_at,
          last_contact := r.last_contact } := by
  induction updates with
  | nil => intro r _ _; simp [applyUpdates, suppliedVal]
  | cons kv rest ih =>
    obtain ⟨k, v⟩ := kv
    intro r hnd hall
    rw [List.map_cons, List.nodup_cons] at hnd
    obtain ⟨hk, hnd⟩ := hnd
    have hrest := ih (setField r k v) hnd
      (fun x hx => hall x (List.mem_cons.2 (Or.inr hx)))
    show applyUpdates (setField r k v) rest = _
    rw [hrest]
    have hknone : suppliedVal rest k = none := by
      rw [suppliedVal, List.find?_eq_none.2 ?_]
      · rfl
      · intro x hx
        simp only [decide_eq_true_eq]
        intro hxf
        exact hk (List.mem_map.2 ⟨x, hx, hxf⟩)
    have hcons : ∀ f : String, suppliedVal ((k, v) :: rest) f
        = if k = f then some v else suppliedVal rest f := by
      intro f
      by_cases h : k = f <;> simp [suppliedVal, List.find?_cons, h]
    have hmem := hall (k, v) (List.mem_cons_self _ _)
    simp only [ALLOWED_FIELDS, List.mem_cons, List.not_mem_nil, or_false] at hmem
    rcases hmem with h | h | h | h | h | h <;> subst h <;>
      simp [setField, hcons, hknone]

/-- Counterexample to C9 as stated: with stored contacts holding emails
`a@x` (id `a`) and `b@x` (id `b`), updating contact `b` with the recognized
field `email = a@x` does not return true — the store's UNIQUE constraint on
email rejects the UPDATE and the call surfaces a constraint error. -/
theorem C9_update_contact_constraint_cex :
    update_contact c9Db "b" [("email", "a@x")]
      = (c9Db, Except.error "IntegrityError: UNIQUE constraint failed: contacts.email")
    ∧ (∃ kv ∈ [("email", "a@x")], kv.1 ∈ ALLOWED_FIELDS)
    ∧ (∃ r ∈ c9Db.contacts, r.id = "b") := by
  refine ⟨?_, by decide, by decide⟩
  rfl

/-- C9 (amended): `update_contact` returns false and changes nothing when
no supplied field is recognized or when no stored contact has the given id;
otherwise — provided the update does not violate the store's unique-email
constraint, which instead surfaces a constraint error (the amendment) — it
returns true and rewrites exactly the matching contact, setting precisely
the supplied whitelisted fields and leaving every other field and row
unchanged. -/
theorem C9_update_contact_amended (db : DB) (cid : String)
    (kwargs : List (String × String)) (hnd : (kwargs.map Prod.fst).Nodup) :
    ((∀ kv ∈ kwargs, kv.1 ∉ ALLOWED_FIELDS) →
      update_contact db cid kwargs = (db, Except.ok false))
    ∧ ((∀ r ∈ db.contacts, r.id ≠ cid) →
      update_contact db cid kwargs = (db, Except.ok false))
    ∧ ((∃ kv ∈ kwargs, kv.1 ∈ ALLOWED_FIELDS) →
      (∃ r ∈ db.contacts, r.id = cid) →
      emailConflict db cid
        (kwargs.filter (fun kv => decide (kv.1 ∈ ALLOWED_FIELDS))) = false →
      (update_contact db cid kwargs).2 = Except.ok true
      ∧ (∀ r ∈ db.contacts, r.id ≠ cid →
          r ∈ (update_contact db cid kwargs).1.contacts)
      ∧ (∀ r ∈ db.contacts, r.id = cid →
          { id := r.id,
            name := (suppliedVal (kwargs.filter
              (fun kv => decide (kv.1 ∈ ALLOWED_FIELDS))) "name").getD r.name,
            email := (suppliedVal (kwargs.filter
              (fun kv => decide (kv.1 ∈ ALLOWED_FIELDS))) "email").getD r.email,
            phone := (suppliedVal (kwargs.filter
              (fun kv => decide (kv.1 ∈ ALLOWED_FIELDS))) "phone").getD r.phone,
            company := (suppliedVal (kwargs.filter
              (fun kv => decide (kv.1 ∈ ALLOWED_FIELDS))) "company").getD r.company,
            tags := (suppliedVal (kwargs.filter
              (fun kv => decide (kv.1 ∈ ALLOWED_FIELDS))) "tags").getD r.tags,
            notes := (suppliedVal (kwargs.filter
              (fun kv => decide (kv.1 ∈ ALLOWED_FIELDS))) "notes").getD r.notes,
            created_at := r.created_at,
            last_contact := r.last_contact }
            ∈ (update_contact db cid kwargs).1.contacts)) := by
  refine ⟨?_, ?_, ?_⟩
  · intro hnone
    have hf : kwargs.filter (fun kv => decide (kv.1 ∈ ALLOWED_FIELDS)) = [] := by
      rw [List.filter_eq_nil_iff]
      intro kv hkv
      simpa using hnone kv hkv
    simp [update_contact, hf]
  · intro hmiss
    rcases update_contact_cases db cid kwargs with ⟨-, heq⟩ | ⟨hcf, heq⟩ | ⟨-, -, heq⟩
    · exact heq
    · exfalso
      unfold emailConflict at hcf
      rw [List.any_eq_true] at hcf
      obtain ⟨r, hr, hrx⟩ := hcf
      simp only [Bool.and_eq_true, decide_eq_true_eq] at hrx
      exact hmiss r hr hrx.1
    · rw [heq]
      have hmap : db.contacts.map (fun r => if r.id = cid then
          applyUpdates r (kwargs.filter (fun kv => decide (kv.1 ∈ ALLOWED_FIELDS)))
          else r) = db.contacts := by
        conv_rhs => rw [← List.map_id db.contacts]
        exact List.map_congr_left (fun r hr => by rw [if_neg (hmiss r hr)]; rfl)
      have hany : db.contacts.any (fun r => decide (r.id = cid)) = false := by
        rw [List.any_eq_false]
        intro r hr
        simpa using hmiss r hr
      rw [hmap, hany]
  · rintro ⟨kv0, hkv0, hkv0a⟩ ⟨r0, hr0, hr0id⟩ hnc
    have hfnd : ((kwargs.filter
        (fun kv => decide (kv.1 ∈ ALLOWED_FIELDS))).map Prod.fst).Nodup :=
      List.Nodup.sublist ((List.filter_sublist kwargs).map Prod.fst) hnd
    have hfall : ∀ kv ∈ kwargs.filter (fun kv => decide (kv.1 ∈ ALLOWED_FIELDS)),
        kv.1 ∈ ALLOWED_FIELDS := by
      intro kv hkv
      simpa using (List.mem_filter.1 hkv).2
    rcases update_contact_cases db cid kwargs with ⟨hemp, -⟩ | ⟨hcf, -⟩ | ⟨-, -, heq⟩
    · exfalso
      have hm : kv0 ∈ kwargs.filter (fun kv => decide (kv.1 ∈ ALLOWED_FIELDS)) :=
        List.mem_filter.2 ⟨hkv0, by simpa using hkv0a⟩
      rw [List.isEmpty_iff] at hemp
      rw [hemp] at hm
      exact List.not_mem_nil _ hm
    · rw [hnc] at hcf
      exact absurd hcf (by simp)
    · rw [heq]
      refine ⟨?_, ?_, ?_⟩
      · have hany : db.contacts.any (fun r => decide (r.id = cid)) = true := by
          rw [List.any_eq_true]
          exact ⟨r0, hr0, by simp [hr0id]⟩
        show Except.ok (db.contacts.any (fun r => decide (r.id = cid)))
          = Except.ok true
        rw [hany]
      · intro r hr hrid
        exact List.mem_map.2 ⟨r, hr, by rw [if_neg hrid]⟩
      · intro r hr hrid
        refine List.mem_map.2 ⟨r, hr, ?_⟩
        rw [if_pos hrid, applyUpdates_closed_form _ r hfnd hfall]

/-- Witness for the amended C9: unrecognized fields and a missing id both
return false without change; a recognized, conflict-free update returns
true. -/
theorem C9_update_contact_amended_witness :
    update_contact c9Db "zz" [("bogus", "1")] = (c9Db, Except.ok false)
    ∧ update_contact c9Db "zz" [("phone", "555")] = (c9Db, Except.ok false)
    ∧ (update_contact c9Db "a" [("phone", "555")]).2 = Except.ok true := by
  have h1 := C9_update_contact_amended c9Db "zz" [("bogus", "1")] (by decide)
  have h2 := C9_update_contact_amended c9Db "zz" [("phone", "555")] (by decide)
  have h3 := C9_update_contact_amended c9Db "a" [("phone", "555")] (by decide)
  exact ⟨h1.1 (by decide), h2.2.1 (by decide),
    (h3.2.2 ⟨("phone", "555"), by decide, by decide⟩ (by decide) (by decide)).1⟩

end CRM
